import Mathlib

/-!
Verification development for the KlipperFleet configuration engine
(`src/backend/kconfig_manager.py`): a shallow embedding of the
`KconfigManager` class — its menu-tree projection (`_parse_menu_item`,
`_serialize_node`), mutation gatekeeper (`set_value`), persistence
(`save_config`) and load lifecycle — together with theorems settling the
specification's claims about it.

The external kconfiglib engine is out of scope for the program; its
per-symbol data (visibility ordinals, evaluated dependency expressions,
string values, choice membership and selection) is therefore embedded as
plain data fields, and its value coercion as an explicit normalization
function parameter.
-/

namespace KlipperFleet

/-- Symbol types used by `type_map` in `_serialize_node`. -/
inductive SymType where
  | boolT | tristateT | stringT | intT | hexT | unknownT
deriving DecidableEq, Repr

/-- An engine symbol as the manager observes it: `sym.name`, `sym.type`,
`sym.visibility` (tri-state ordinal), `sym.str_value`,
`expr_value(sym.rev_dep)`, the owning choice if any (`sym.choice`), and
the prompt text of `sym.nodes[0]` when the symbol has a node with a
prompt (used for choice member entries). -/
structure Sym where
  name : String
  type : SymType
  visibility : Nat
  strValue : String
  revDepVal : Nat
  choice : Option String
  nodePrompt : Option String
deriving DecidableEq, Repr

/-- An engine choice as the manager observes it: `choice.name` (None for
anonymous choices), member symbols `choice.syms` in order,
`choice.selection` (name of the selected symbol, if any),
`choice.visibility`, and `choice.str_value`. -/
structure ChoiceItem where
  name : Option String
  syms : List Sym
  selection : Option String
  visibility : Nat
  strValue : String
deriving DecidableEq, Repr

/-- Embeds `node.item`: a Symbol, a Choice, MENU or COMMENT. -/
inductive Item where
  | sym (s : Sym)
  | choice (c : ChoiceItem)
  | menu
  | comment
deriving DecidableEq, Repr

/-- A kconfiglib menu node as walked by `_parse_menu_item` /
`_serialize_node`: item, prompt (text together with the evaluated
condition `expr_value(prompt[1])`), evaluated `expr_value(node.dep)`,
`str(node.dep)`, `node.linenr`, `node.help`, and the child nodes
reachable through `node.list` / `.next`. -/
inductive Node where
  | mk (item : Item) (prompt : Option (String × Nat)) (depVal : Nat)
       (depStr : String) (linenr : Nat) (help : Option String)
       (children : List Node)

def Node.item : Node → Item
  | .mk i _ _ _ _ _ _ => i

def Node.prompt : Node → Option (String × Nat)
  | .mk _ p _ _ _ _ _ => p

def Node.depVal : Node → Nat
  | .mk _ _ d _ _ _ _ => d

def Node.depStr : Node → String
  | .mk _ _ _ d _ _ _ => d

def Node.linenr : Node → Nat
  | .mk _ _ _ _ l _ _ => l

def Node.help : Node → Option String
  | .mk _ _ _ _ _ h _ => h

def Node.children : Node → List Node
  | .mk _ _ _ _ _ _ c => c

/-- One element of the `choices` list of a serialized choice entry:
`{"name": ..., "prompt": ..., "value": ...}`. -/
structure ChoiceMember where
  name : String
  prompt : String
  value : String
deriving DecidableEq, Repr

/-- A dictionary produced by `_serialize_node` (plus the `children` key
that `_parse_menu_item` may add).  Menu/comment dictionaries carry only
the keys `type`, `prompt`, `help`, `visible`; symbol/choice dictionaries
carry `name`, `type`, `prompt`, `default`, `value`, `help`, `visible`,
`dep_str`, `choices`, `readonly`.  The two shapes are the two
constructors. -/
inductive Entry where
  | menuEntry (kind : String) (prompt : String) (help : Option String)
      (visible : Bool) (children : Option (List Entry))
  | symEntry (name : String) (kind : String) (prompt : String)
      (dflt : String) (value : Option String) (help : Option String)
      (visible : Bool) (depStr : String) (choices : List ChoiceMember)
      (readonly : Bool) (children : Option (List Entry))

/-- The `name` key of an entry: absent (`none`) on menu/comment
entries. -/
def Entry.nameField : Entry → Option String
  | .menuEntry _ _ _ _ _ => none
  | .symEntry n _ _ _ _ _ _ _ _ _ _ => some n

/-- The `type` key of an entry. -/
def Entry.kindField : Entry → String
  | .menuEntry k _ _ _ _ => k
  | .symEntry _ k _ _ _ _ _ _ _ _ _ => k

/-- The `visible` key of an entry. -/
def Entry.visibleField : Entry → Bool
  | .menuEntry _ _ _ v _ => v
  | .symEntry _ _ _ _ _ _ v _ _ _ _ => v

/-- The `choices` key of an entry (empty on menu/comment entries, which
have no such key). -/
def Entry.choicesField : Entry → List ChoiceMember
  | .menuEntry _ _ _ _ _ => []
  | .symEntry _ _ _ _ _ _ _ _ cs _ _ => cs

/-- The `value` key of an entry (`none` when absent; choices may carry
an explicit null value, hence the nested option on symbol entries). -/
def Entry.valueField : Entry → Option (Option String)
  | .menuEntry _ _ _ _ _ => none
  | .symEntry _ _ _ _ v _ _ _ _ _ _ => some v

/-- Embeds `item["children"] = ...` in `_parse_menu_item`. -/
def Entry.withChildren : Entry → List Entry → Entry
  | .menuEntry k p h v _, cs => .menuEntry k p h v (some cs)
  | .symEntry n k p d val h v ds ch ro _, cs =>
      .symEntry n k p d val h v ds ch ro (some cs)

/-- The loaded graph of a manager (`self.kconf`): the symbol table
`kconf.syms`, the named choices `kconf.named_choices`, and
`kconf.top_node`. -/
structure Kconf where
  syms : List Sym
  namedChoices : List ChoiceItem
  topNode : Node

/-- Embeds `name in self.kconf.syms` / `self.kconf.syms[name]` — first symbol
with the given name. -/
def Kconf.findSym (k : Kconf) (n : String) : Option Sym :=
  k.syms.find? (fun s => s.name == n)

/-- Embeds `name in self.kconf.named_choices` and its lookup. -/
def Kconf.findNamedChoice (k : Kconf) (n : String) : Option ChoiceItem :=
  k.namedChoices.find? (fun c => c.name == some n)

/-- Python's `s.startswith(pre)`. -/
def strStarts (s pre : String) : Bool :=
  pre.toList.isPrefixOf s.toList

/-- Python's `needle in hay` substring test. -/
def strContains (hay needle : String) : Bool :=
  hay.toList.tails.any (fun t => needle.toList.isPrefixOf t)

/-- Embeds `type_map.get(sym.type, "unknown")`. -/
def typeName : SymType → String
  | .boolT => "bool"
  | .tristateT => "tristate"
  | .stringT => "string"
  | .intT => "int"
  | .hexT => "hex"
  | .unknownT => "unknown"

/-- One `{"name", "prompt", "value"}` element of `visible_choices`:
prompt falls back to the member's name when it has no prompted node. -/
def memberEntry (m : Sym) : ChoiceMember :=
  { name := m.name
    prompt := match m.nodePrompt with
      | some p => p
      | none => m.name
    value := m.name }

/-- Embeds `[choice_sym for choice_sym in sym.syms if choice_sym.visibility > 0]`. -/
def visibleMembers (c : ChoiceItem) : List Sym :=
  c.syms.filter (fun s => decide (0 < s.visibility))

/-- Embeds `selected`: the engine-reported selection's name, falling back to the
first member whose `str_value` is `'y'`. -/
def choiceSelected (c : ChoiceItem) : Option String :=
  let fromSel : Option String :=
    match c.selection with
    | some n => if n == "" then none else some n
    | none => none
  match fromSel with
  | some n => some n
  | none => (c.syms.find? (fun s => s.strValue == "y")).map Sym.name

/-- The redundant-choice elision of `_serialize_node`: one visible member
that is already selected, or zero visible members, forces
`visible=False`; otherwise the base visibility stands. -/
def choiceFinalVisible (c : ChoiceItem) (base : Bool) : Bool :=
  match visibleMembers c with
  | [m] => if choiceSelected c == some m.name then false else base
  | [] => false
  | _ => base

/-- Embeds `KconfigManager._serialize_node`, translated branch for branch:
nodes without prompts are dropped; symbols/choices are dropped when
invisible unless the `WANT_` override applies; menus/comments are
dropped when their prompt condition is zero unless the
"Optional features" override applies; otherwise the dictionary is
built exactly as in the source. -/
def serialize_node (showOpt : Bool) (node : Node) : Option Entry :=
  match node.prompt with
  | none => none
  | some (ptext, pcond) =>
    match node.item with
    | Item.menu =>
        let isOptionalMenu := showOpt && strContains ptext "Optional features"
        if !isOptionalMenu && pcond == 0 then none
        else some (Entry.menuEntry
          (if node.children.isEmpty then "comment" else "menu")
          ptext node.help true none)
    | Item.comment =>
        let isOptionalMenu := showOpt && strContains ptext "Optional features"
        if !isOptionalMenu && pcond == 0 then none
        else some (Entry.menuEntry
          (if node.children.isEmpty then "comment" else "menu")
          ptext node.help true none)
    | Item.sym s =>
        let isWant := showOpt && s.name != ""
          && (strStarts s.name "WANT_" || strStarts s.name "CONFIG_WANT_")
        if !isWant && s.visibility == 0 then none
        else
          let name := if s.name != "" then s.name
            else "__node_" ++ ptext ++ "_" ++ toString node.linenr
          let vis := decide (0 < node.depVal)
            || (showOpt && name != "" && strContains name "WANT_")
          some (Entry.symEntry name (typeName s.type) ptext s.strValue
            (some s.strValue) node.help vis node.depStr []
            (decide (0 < s.revDepVal)) none)
    | Item.choice c =>
        let cname := c.name.getD ""
        let isWant := showOpt && cname != ""
          && (strStarts cname "WANT_" || strStarts cname "CONFIG_WANT_")
        if !isWant && c.visibility == 0 then none
        else
          let name := if cname == ""
            then "__choice_" ++ ptext ++ "_" ++ toString node.linenr
            else cname
          let baseVis := decide (0 < node.depVal)
            || (showOpt && name != "" && strContains name "WANT_")
          some (Entry.symEntry name "choice" ptext c.strValue
            (choiceSelected c) node.help (choiceFinalVisible c baseVis)
            node.depStr ((visibleMembers c).map memberEntry) false none)

/-- Embeds `KconfigManager._parse_menu_item` applied to a sibling list:
serialize each node, recurse into its children when it has any, and keep
source order. -/
def parse_menu_item (showOpt : Bool) : List Node → List Entry
  | [] => []
  | n :: rest =>
    (match serialize_node showOpt n with
     | none => []
     | some e =>
       match n with
       | Node.mk _ _ _ _ _ _ children =>
         if children.isEmpty then [e]
         else [e.withChildren (parse_menu_item showOpt children)]) ++
    parse_menu_item showOpt rest

/-- Embeds `KconfigManager.get_menu_tree` on a loaded graph:
`_parse_menu_item(self.kconf.top_node, ...)`. -/
def get_menu_tree (showOpt : Bool) (k : Kconf) : List Entry :=
  parse_menu_item showOpt k.topNode.children

/-- The engine-side `sym.set_value(v)` for the symbol named `n`: the
stored value becomes the engine's coercion of `v` to the symbol's
declared type, abstracted as the normalization function `norm`. -/
def setSymValue (norm : SymType → String → String) (k : Kconf)
    (n v : String) : Kconf :=
  { k with syms := k.syms.map (fun s =>
      if s.name == n then { s with strValue := norm s.type v } else s) }

/-- The body of the anonymous-choice branch of `set_value`:
`sym = self.kconf.syms[value]; if sym.visibility > 0: sym.set_value('y')`. -/
def selectIfVisible (norm : SymType → String → String) (k : Kconf)
    (v : String) : Kconf :=
  match k.findSym v with
  | some s => if 0 < s.visibility then setSymValue norm k v "y" else k
  | none => k

/-- Embeds `KconfigManager.set_value` on a loaded graph, translated branch for
branch, including the fall-through when a `__choice_`-prefixed name
comes with a `value` that is not a known symbol. -/
def set_value (norm : SymType → String → String) (k : Kconf)
    (name value : String) : Kconf :=
  if name != "" && strStarts name "__choice_" && value != ""
      && (k.findSym value).isSome then
    selectIfVisible norm k value
  else if name != "" && strStarts name "__node_" then k
  else if name == "" then k
  else
    match k.findSym name with
    | some s =>
        if s.visibility == 0 then k
        else if s.choice.isSome && (k.findSym value).isSome then
          setSymValue norm k value "y"
        else setSymValue norm k name value
    | none =>
        match k.findNamedChoice name with
        | some c =>
            if 0 < c.visibility && value != "" && (k.findSym value).isSome
            then setSymValue norm k value "y"
            else k
        | none => k

/-- The external engine's `kconf.write_config(path)`, abstracted as the
key/value pairs it serializes: the conventional key of each symbol
mapped to its current value. -/
def write_config (k : Kconf) : List (String × String) :=
  k.syms.map (fun s => (s.name, s.strValue))

/-- Lookup of a key in a written profile. -/
def lookupVal (l : List (String × String)) (n : String) : Option String :=
  (l.find? (fun p => p.1 == n)).map (fun p => p.2)

/-- The stored value of the symbol named `n` in the loaded graph. -/
def symValueOf (k : Kconf) (n : String) : Option String :=
  (k.findSym n).map Sym.strValue

/-- The errors `_load_kconfig_sync` can surface: `FileNotFoundError`
when the root Kconfig file is absent, or a kconfiglib parse error.
There is no not-loaded error anywhere in the manager. -/
inductive LoadErr where
  | fileNotFound
  | parseFailure
deriving DecidableEq, Repr

/-- A `KconfigManager` instance as the query/mutation/save entry points
see it: `self.kconf` is `None` until a load has happened. -/
structure Manager where
  kconf : Option Kconf

/-- Embeds `KconfigManager.get_menu_tree`: `if not self.kconf:
self._load_kconfig_sync()` and then project the tree.  `loadRes`
abstracts what `_load_kconfig_sync` would produce (a graph, or a raised
error) given the file system. -/
def getMenuTreeOp (loadRes : Except LoadErr Kconf) (showOpt : Bool)
    (m : Manager) : Except LoadErr (Manager × List Entry) :=
  match m.kconf with
  | some k => .ok (m, get_menu_tree showOpt k)
  | none =>
      match loadRes with
      | .ok k => .ok ({ kconf := some k }, get_menu_tree showOpt k)
      | .error e => .error e

/-- Embeds `KconfigManager.set_value` at the session level: also implicitly
loads when `self.kconf` is `None`. -/
def setValueOp (loadRes : Except LoadErr Kconf)
    (norm : SymType → String → String) (m : Manager)
    (name value : String) : Except LoadErr Manager :=
  match m.kconf with
  | some k => .ok { kconf := some (set_value norm k name value) }
  | none =>
      match loadRes with
      | .ok k => .ok { kconf := some (set_value norm k name value) }
      | .error e => .error e

/-- Embeds `KconfigManager.save_config`: `if self.kconf:
self.kconf.write_config(output_path)` — on an unloaded manager it
writes nothing and raises nothing. -/
def saveConfigOp (m : Manager) :
    Except LoadErr (Manager × Option (List (String × String))) :=
  match m.kconf with
  | some k => .ok (m, some (write_config k))
  | none => .ok (m, none)

/-- Process-wide state touched by `_load_kconfig_sync`: the working
directory and the environment variables. -/
structure ProcState where
  cwd : String
  env : List (String × String)
deriving DecidableEq, Repr

/-- Embeds `os.environ[key] = v`: replace the binding when present, append it
otherwise. -/
def setEnvVar (env : List (String × String)) (key v : String) :
    List (String × String) :=
  match env with
  | [] => [(key, v)]
  | p :: rest =>
      if p.1 == key then (p.1, v) :: rest else p :: setEnvVar rest key v

/-- Embeds `os.environ.get(key)`. -/
def getEnvVar (env : List (String × String)) (key : String) :
    Option String :=
  (env.find? (fun p => p.1 == key)).map (fun p => p.2)

/-- How `_load_kconfig_sync` exits. -/
inductive LoadOutcome where
  | success
  | fileNotFound
  | parseFailure
deriving DecidableEq, Repr

/-- Embeds `KconfigManager._load_kconfig_sync` restricted to its effect on the
process-wide state: it sets `SRCTREE`/`srctree` to the absolute klipper
directory, then checks the Kconfig file, then saves the working
directory, changes into the klipper directory, parses inside
`try:`, and restores only the working directory in `finally:`.
`absDir` stands for `os.path.abspath(self.klipper_dir)`, `fsExists` for
the existence check on `self.kconfig_file`, and `parseOk` for whether
`kconfiglib.Kconfig(...)` (and the optional `load_config`) succeeds. -/
def load_kconfig_sync (absDir : String) (fsExists : Bool)
    (parseOk : Bool) (st : ProcState) : LoadOutcome × ProcState :=
  let env1 := setEnvVar (setEnvVar st.env "SRCTREE" absDir) "srctree" absDir
  let st1 : ProcState := { st with env := env1 }
  if !fsExists then (LoadOutcome.fileNotFound, st1)
  else
    let oldCwd := st1.cwd
    let st2 : ProcState := { st1 with cwd := absDir }
    if parseOk then (LoadOutcome.success, { st2 with cwd := oldCwd })
    else (LoadOutcome.parseFailure, { st2 with cwd := oldCwd })

/-- The file-system facts the compatibility hook logic inspects. -/
structure HookEnv where
  scriptExists : Bool
  subDefExists : Bool
  hookFails : Bool
deriving DecidableEq, Repr

/-- What the hook phase did. -/
structure HookResult where
  hookRan : Bool
  placeholderWritten : Bool
  loadContinues : Bool
deriving DecidableEq, Repr

/-- Modelled from the spec: the compatibility-hook phase of `load` is
absent from `src/backend/kconfig_manager.py` (only its tests, in
`src/tests/test_kconfig_manager.py` `TestKalicoExtrasSupport`, exist in
the sources).  Per the spec: before parsing, if the hook script exists
at its conventional location and the optional sub-definition file it
generates is absent, the hook is executed synchronously; on hook failure
an empty placeholder sub-definition file is written and the load
continues; if the sub-definition file already exists the hook is skipped
entirely. -/
def runExtrasHook (h : HookEnv) : HookResult :=
  if h.scriptExists && !h.subDefExists then
    if h.hookFails then
      { hookRan := true, placeholderWritten := true, loadContinues := true }
    else
      { hookRan := true, placeholderWritten := false, loadContinues := true }
  else
    { hookRan := false, placeholderWritten := false, loadContinues := true }


/-! ## Helper lemmas -/

theorem findSym_cons_pos (a : Sym) (l : List Sym) (n : String)
    (h : a.name = n) :
    (a :: l).find? (fun s => s.name == n) = some a :=
  List.find?_cons_of_pos l (by simp [h])

theorem findSym_cons_neg (a : Sym) (l : List Sym) (n : String)
    (h : a.name ≠ n) :
    (a :: l).find? (fun s => s.name == n)
      = l.find? (fun s => s.name == n) :=
  List.find?_cons_of_neg l (by simp [h])

theorem findPair_cons_pos (a : String × String)
    (l : List (String × String)) (n : String) (h : a.1 = n) :
    (a :: l).find? (fun p => p.1 == n) = some a :=
  List.find?_cons_of_pos l (by simp [h])

theorem findPair_cons_neg (a : String × String)
    (l : List (String × String)) (n : String) (h : a.1 ≠ n) :
    (a :: l).find? (fun p => p.1 == n)
      = l.find? (fun p => p.1 == n) :=
  List.find?_cons_of_neg l (by simp [h])

theorem find_setSym_list_ne (norm : SymType → String → String)
    (x v n : String) (h : n ≠ v) (l : List Sym) :
    (l.map (fun s => if s.name == v
        then { s with strValue := norm s.type x } else s)).find?
      (fun s => s.name == n) = l.find? (fun s => s.name == n) := by
  induction l with
  | nil => rfl
  | cons a l ih =>
    simp only [List.map_cons]
    by_cases hav : a.name = v
    · rw [if_pos (by simp [hav] : (a.name == v) = true),
        findSym_cons_neg _ _ _ (show
          ({ a with strValue := norm a.type x } : Sym).name ≠ n by
          show a.name ≠ n
          simpa [hav] using Ne.symm h),
        findSym_cons_neg _ _ _ (show a.name ≠ n by
          simpa [hav] using Ne.symm h)]
      exact ih
    · rw [if_neg (by simp [hav] : ¬ ((a.name == v) = true))]
      by_cases han : a.name = n
      · rw [findSym_cons_pos _ _ _ han, findSym_cons_pos _ _ _ han]
      · rw [findSym_cons_neg _ _ _ han, findSym_cons_neg _ _ _ han]
        exact ih

theorem find_setSym_list_self (norm : SymType → String → String)
    (x n : String) (l : List Sym) (s : Sym)
    (h : l.find? (fun t => t.name == n) = some s) :
    (l.map (fun t => if t.name == n
        then { t with strValue := norm t.type x } else t)).find?
      (fun t => t.name == n) = some { s with strValue := norm s.type x } := by
  induction l with
  | nil => simp [List.find?] at h
  | cons a l ih =>
    simp only [List.map_cons]
    by_cases han : a.name = n
    · rw [findSym_cons_pos _ _ _ han] at h
      injection h with hh
      subst hh
      rw [if_pos (by simp [han] : (a.name == n) = true),
        findSym_cons_pos _ _ _ (show
          ({ a with strValue := norm a.type x } : Sym).name = n from han)]
    · rw [findSym_cons_neg _ _ _ han] at h
      rw [if_neg (by simp [han] : ¬ ((a.name == n) = true)),
        findSym_cons_neg _ _ _ han]
      exact ih h

theorem findSym_setSymValue_ne (norm : SymType → String → String)
    (k : Kconf) (v x n : String) (h : n ≠ v) :
    (setSymValue norm k v x).findSym n = k.findSym n := by
  unfold setSymValue Kconf.findSym
  exact find_setSym_list_ne norm x v n h k.syms

theorem findSym_setSymValue_self (norm : SymType → String → String)
    (k : Kconf) (x n : String) (s : Sym) (h : k.findSym n = some s) :
    (setSymValue norm k n x).findSym n
      = some { s with strValue := norm s.type x } := by
  unfold setSymValue Kconf.findSym
  exact find_setSym_list_self norm x n k.syms s h

theorem lookupVal_write_config (k : Kconf) (n : String) :
    lookupVal (write_config k) n = symValueOf k n := by
  unfold lookupVal write_config symValueOf Kconf.findSym
  generalize k.syms = l
  induction l with
  | nil => rfl
  | cons a l ih =>
    simp only [List.map_cons]
    by_cases han : a.name = n
    · rw [findPair_cons_pos _ _ _ (show (a.name, a.strValue).1 = n from han),
        findSym_cons_pos _ _ _ han]
      rfl
    · rw [findPair_cons_neg _ _ _ (show (a.name, a.strValue).1 ≠ n from han),
        findSym_cons_neg _ _ _ han]
      exact ih

/-! ## Branch characterizations of `set_value` -/

/-- The anonymous-choice branch: a `__choice_`-prefixed name with a
known `value` symbol selects that symbol when it is visible, whatever
choice (if any) it belongs to. -/
theorem set_value_anonChoice (norm : SymType → String → String)
    (k : Kconf) (name value : String) (sv : Sym) (hn : name ≠ "")
    (hpre : strStarts name "__choice_" = true) (hv : value ≠ "")
    (hfind : k.findSym value = some sv) :
    set_value norm k name value
      = if 0 < sv.visibility then setSymValue norm k value "y" else k := by
  unfold set_value selectIfVisible
  have hc : (name != "" && strStarts name "__choice_" && value != ""
      && (k.findSym value).isSome) = true := by
    simp [hn, hpre, hv, hfind]
  rw [if_pos hc, hfind]

/-- The known-symbol branch of `set_value` (reached whenever the
anonymous-choice branch did not hit and the name has no `__node_`
prefix). -/
theorem set_value_knownSym (norm : SymType → String → String)
    (k : Kconf) (name value : String) (s : Sym)
    (hc1 : (name != "" && strStarts name "__choice_" && value != ""
        && (k.findSym value).isSome) = false)
    (h2 : strStarts name "__node_" = false) (h3 : name ≠ "")
    (h4 : k.findSym name = some s) :
    set_value norm k name value =
      (if s.visibility == 0 then k
       else if s.choice.isSome && (k.findSym value).isSome then
         setSymValue norm k value "y"
       else setSymValue norm k name value) := by
  unfold set_value
  rw [if_neg (by simp [hc1]), if_neg (by simp [h2]), if_neg (by simp [h3]), h4]

/-- The named-choice branch of `set_value`: any known `value` symbol is
selected when the choice is visible — the member's own visibility and
its membership are not consulted. -/
theorem set_value_namedChoice (norm : SymType → String → String)
    (k : Kconf) (name value : String) (c : ChoiceItem)
    (hc1 : (name != "" && strStarts name "__choice_" && value != ""
        && (k.findSym value).isSome) = false)
    (h2 : strStarts name "__node_" = false) (h3 : name ≠ "")
    (h4 : k.findSym name = none) (h5 : k.findNamedChoice name = some c) :
    set_value norm k name value =
      (if 0 < c.visibility && value != "" && (k.findSym value).isSome then
        setSymValue norm k value "y" else k) := by
  unfold set_value
  rw [if_neg (by simp [hc1]), if_neg (by simp [h2]), if_neg (by simp [h3]), h4, h5]


/-- A trivial engine normalization (identity coercion) for concrete
instances. -/
def normId : SymType → String → String := fun _ v => v

/-- A contentless top node for concrete graphs whose claims do not
involve the tree. -/
def trivNode : Node := Node.mk Item.menu none 0 "" 0 none []

/-! ## C1 — ghost-value prevention -/

/-- Every `set_value` call naming a known symbol whose visibility is
zero either leaves the graph untouched or performs an engine write on a
symbol with a different name. -/
theorem set_value_invisible_cases (norm : SymType → String → String)
    (k : Kconf) (name value : String) (s : Sym)
    (hfind : k.findSym name = some s) (hvis : s.visibility = 0) :
    set_value norm k name value = k ∨
      ∃ v, v ≠ name ∧
        set_value norm k name value = setSymValue norm k v "y" := by
  by_cases hc1 : (name != "" && strStarts name "__choice_" && value != ""
      && (k.findSym value).isSome) = true
  · have hc1' := hc1
    rw [Bool.and_eq_true, Bool.and_eq_true, Bool.and_eq_true] at hc1'
    obtain ⟨⟨⟨ha, hb⟩, hcv⟩, hd⟩ := hc1'
    obtain ⟨sv, hsv⟩ := Option.isSome_iff_exists.mp hd
    rw [set_value_anonChoice norm k name value sv (bne_iff_ne.mp ha) hb
      (bne_iff_ne.mp hcv) hsv]
    by_cases hsvv : 0 < sv.visibility
    · rw [if_pos hsvv]
      refine Or.inr ⟨value, ?_, rfl⟩
      intro hveq
      rw [hveq, hfind] at hsv
      injection hsv with hh
      rw [hh] at hvis
      omega
    · rw [if_neg hsvv]
      exact Or.inl rfl
  · have hc1f : (name != "" && strStarts name "__choice_" && value != ""
        && (k.findSym value).isSome) = false := by
      simpa using hc1
    by_cases hn : name = ""
    · left
      unfold set_value
      rw [if_neg hc1, if_neg (by simp [hn]), if_pos (by simp [hn])]
    · by_cases hnode : strStarts name "__node_" = true
      · left
        unfold set_value
        rw [if_neg hc1, if_pos (by simp [hn, hnode])]
      · rw [set_value_knownSym norm k name value s hc1f
          (by simpa using hnode) hn hfind]
        rw [if_pos (by simp [hvis])]
        exact Or.inl rfl

/-- C1: for every symbol name known to the loaded graph whose visibility
currently evaluates to zero, `set_value(name, value)` with any value is
a no-op on that symbol — its stored value is unchanged afterwards, and a
subsequent save writes the same value for that symbol as a save before
the call would have (ghost-value prevention). -/
theorem c1_ghost_value_prevention (norm : SymType → String → String)
    (k : Kconf) (name value : String) (s : Sym)
    (hfind : k.findSym name = some s) (hvis : s.visibility = 0) :
    symValueOf (set_value norm k name value) name = symValueOf k name ∧
    lookupVal (write_config (set_value norm k name value)) name
      = lookupVal (write_config k) name := by
  rcases set_value_invisible_cases norm k name value s hfind hvis with
    hk | ⟨v, hvn, hk⟩
  · rw [hk]
    exact ⟨rfl, rfl⟩
  · have hs : symValueOf (setSymValue norm k v "y") name
        = symValueOf k name := by
      unfold symValueOf
      rw [findSym_setSymValue_ne norm k v "y" name (Ne.symm hvn)]
    constructor
    · rw [hk]
      exact hs
    · rw [hk, lookupVal_write_config, lookupVal_write_config]
      exact hs

/-- The `CANBUS_SPEED` ghost symbol of the spec scenario: present in the
graph with a stored prior value while currently invisible. -/
def symGhost : Sym :=
  { name := "CANBUS_SPEED", type := SymType.intT, visibility := 0,
    strValue := "5000000", revDepVal := 0, choice := none,
    nodePrompt := none }

def kC1 : Kconf :=
  { syms := [symGhost], namedChoices := [], topNode := trivNode }

/-- C1 witness: mutating the invisible `CANBUS_SPEED` to `9000000` is a
no-op for its stored and saved value. -/
theorem c1_ghost_value_prevention_witness :
    symValueOf (set_value normId kC1 "CANBUS_SPEED" "9000000") "CANBUS_SPEED"
      = symValueOf kC1 "CANBUS_SPEED" ∧
    lookupVal (write_config (set_value normId kC1 "CANBUS_SPEED" "9000000"))
        "CANBUS_SPEED"
      = lookupVal (write_config kC1) "CANBUS_SPEED" :=
  c1_ghost_value_prevention normId kC1 "CANBUS_SPEED" "9000000" symGhost
    rfl rfl

/-! ## C9 — set/save round trip -/

/-- C9: writing a visible symbol that is not a choice member goes
directly to that symbol, and a subsequent save maps its conventional key
to the written value, up to the engine type normalization. -/
theorem c9_set_save_roundtrip (norm : SymType → String → String)
    (k : Kconf) (n v : String) (s : Sym)
    (h1 : strStarts n "__choice_" = false)
    (h2 : strStarts n "__node_" = false) (h3 : n ≠ "")
    (h4 : k.findSym n = some s) (h5 : s.visibility ≠ 0)
    (h6 : s.choice = none) :
    lookupVal (write_config (set_value norm k n v)) n
      = some (norm s.type v) := by
  rw [set_value_knownSym norm k n v s (by simp [h1]) h2 h3 h4,
    if_neg (by simp [h5]), if_neg (by simp [h6]), lookupVal_write_config]
  unfold symValueOf
  rw [findSym_setSymValue_self norm k v n s h4]
  rfl

/-- A visible, non-choice string symbol, as exercised by the repository
test `test_save_config`. -/
def symMcu : Sym :=
  { name := "BOARD_MCU", type := SymType.stringT, visibility := 2,
    strValue := "stm32", revDepVal := 0, choice := none,
    nodePrompt := none }

def kC9 : Kconf :=
  { syms := [symMcu], namedChoices := [], topNode := trivNode }

/-- C9 witness: `set_value("BOARD_MCU", "rp2040")` followed by a save
yields `BOARD_MCU` mapped to `rp2040`. -/
theorem c9_set_save_roundtrip_witness :
    lookupVal (write_config (set_value normId kC9 "BOARD_MCU" "rp2040"))
      "BOARD_MCU" = some "rp2040" :=
  c9_set_save_roundtrip normId kC9 "BOARD_MCU" "rp2040" symMcu rfl rfl
    (by decide) rfl (by decide) rfl


/-- A visible symbol outside every choice, for the C2 scenario. -/
def symB2 : Sym :=
  { name := "B", type := SymType.boolT, visibility := 1, strValue := "n",
    revDepVal := 0, choice := none, nodePrompt := none }

def kC2 : Kconf :=
  { syms := [symB2], namedChoices := [], topNode := trivNode }

/-- A visible choice member, for the C8 scenario. -/
def symA8 : Sym :=
  { name := "A", type := SymType.boolT, visibility := 1, strValue := "y",
    revDepVal := 0, choice := some "BEARTYPE", nodePrompt := none }

/-- A symbol outside every choice, for the C8 scenario. -/
def symB8 : Sym :=
  { name := "B", type := SymType.boolT, visibility := 0, strValue := "n",
    revDepVal := 0, choice := none, nodePrompt := none }

def kC8 : Kconf :=
  { syms := [symA8, symB8], namedChoices := [], topNode := trivNode }

/-! ## C2 — choice-targeted mutation -/

/-- C2 counterexample: a `__choice_`-prefixed identifier makes
`set_value` select any known visible symbol named by `value` — here the
graph holds no choice at all, so `value` is certainly not a visible
member of that same choice, yet the call changes symbol `B`. -/
theorem c2_counterexample :
    kC2.namedChoices = [] ∧
    (kC2.findSym "B").map Sym.choice = some none ∧
    symValueOf kC2 "B" = some "n" ∧
    symValueOf (set_value normId kC2 "__choice_Bear_type_3" "B") "B"
      = some "y" :=
  ⟨rfl, rfl, rfl, rfl⟩

/-- C2 amended: for a `__choice_`-prefixed name, `set_value` selects the
symbol named by `value` whenever that symbol is known and currently
visible, with no membership check against any choice; for a known named
choice with positive visibility, it selects the symbol named by `value`
whenever that symbol is merely known — neither its visibility nor its
membership is checked. -/
theorem c2_amended (norm : SymType → String → String) (k : Kconf)
    (value : String) (sv : Sym) (hv : value ≠ "")
    (hfind : k.findSym value = some sv) :
    (∀ name, name ≠ "" → strStarts name "__choice_" = true →
        set_value norm k name value =
          if 0 < sv.visibility then setSymValue norm k value "y" else k) ∧
    (∀ cname c, cname ≠ "" → strStarts cname "__choice_" = false →
        strStarts cname "__node_" = false → k.findSym cname = none →
        k.findNamedChoice cname = some c →
        set_value norm k cname value =
          if 0 < c.visibility then setSymValue norm k value "y" else k) := by
  constructor
  · intro name hn hpre
    exact set_value_anonChoice norm k name value sv hn hpre hv hfind
  · intro cname c hn hp1 hp2 hnone hch
    rw [set_value_namedChoice norm k cname value c (by simp [hp1]) hp2 hn
      hnone hch]
    by_cases hcv : 0 < c.visibility <;> simp [hcv, hv, hfind]

/-- C2 amended witness: the anonymous-choice branch at a concrete
graph. -/
theorem c2_amended_witness :
    set_value normId kC2 "__choice_Bear_type_3" "B"
      = setSymValue normId kC2 "B" "y" := by
  have h := (c2_amended normId kC2 "B" symB2 (by decide) rfl).1
    "__choice_Bear_type_3" (by decide) rfl
  rw [h, if_pos (by decide : 0 < symB2.visibility)]

/-! ## C8 — choice-member redirect -/

/-- C8 counterexample: symbol `A` is visible and belongs to a choice;
`value` names symbol `B`, which is outside any choice (and even
invisible), yet `set_value("A", "B")` sets `B` to `y`. -/
theorem c8_counterexample :
    (kC8.findSym "A").map Sym.choice = some (some "BEARTYPE") ∧
    (kC8.findSym "B").map Sym.choice = some none ∧
    symValueOf kC8 "B" = some "n" ∧
    symValueOf (set_value normId kC8 "A" "B") "B" = some "y" :=
  ⟨rfl, rfl, rfl, rfl⟩

/-- C8 amended: for a known, visible symbol that belongs to a choice,
`set_value` writes the named symbol directly only when `value` is not a
known symbol identifier; when `value` names any known symbol — member of
the same choice or not — that symbol is set to `y` instead. -/
theorem c8_amended (norm : SymType → String → String) (k : Kconf)
    (name value : String) (s : Sym)
    (h1 : strStarts name "__choice_" = false)
    (h2 : strStarts name "__node_" = false) (h3 : name ≠ "")
    (h4 : k.findSym name = some s) (h5 : s.visibility ≠ 0)
    (h6 : s.choice.isSome = true) :
    set_value norm k name value =
      (if (k.findSym value).isSome then setSymValue norm k value "y"
       else setSymValue norm k name value) := by
  rw [set_value_knownSym norm k name value s (by simp [h1]) h2 h3 h4,
    if_neg (by simp [h5])]
  by_cases hfv : (k.findSym value).isSome = true
  · rw [if_pos (by simp [h6, hfv]), if_pos hfv]
  · rw [if_neg (by simp [hfv]), if_neg hfv]

/-- C8 amended witness at the concrete graph of the counterexample. -/
theorem c8_amended_witness :
    set_value normId kC8 "A" "B" = setSymValue normId kC8 "B" "y" := by
  have h := c8_amended normId kC8 "A" "B" symA8 rfl rfl (by decide) rfl
    (by decide) rfl
  rw [h, if_pos (by decide : (kC8.findSym "B").isSome = true)]


/-! ## C3 — NotLoaded failure -/

/-- An empty loaded graph, for session-level instances. -/
def kEmpty : Kconf :=
  { syms := [], namedChoices := [], topNode := trivNode }

/-- C3 counterexample: on an unloaded manager, `save_config` silently
does nothing and raises nothing, and `get_menu_tree` implicitly loads
and succeeds — no operation fails with a not-loaded error (the manager
has no such error at all). -/
theorem c3_counterexample :
    saveConfigOp { kconf := none }
      = Except.ok ({ kconf := none }, none) ∧
    getMenuTreeOp (Except.ok kEmpty) false { kconf := none }
      = Except.ok ({ kconf := some kEmpty }, []) := by
  refine ⟨rfl, ?_⟩
  simp [getMenuTreeOp, get_menu_tree, parse_menu_item, kEmpty, trivNode,
    Node.children]

/-- C3 amended: operations on a session with no loaded graph do not
fail with a not-loaded error: `get_menu_tree` and `set_value` first run
the synchronous load (surfacing only that load's own errors), and
`save_config` silently does nothing. -/
theorem c3_amended (loadRes : Except LoadErr Kconf)
    (norm : SymType → String → String) (m : Manager) (showOpt : Bool)
    (name value : String) (h : m.kconf = none) :
    saveConfigOp m = Except.ok (m, none) ∧
    getMenuTreeOp loadRes showOpt m =
      (match loadRes with
       | Except.ok k => Except.ok ({ kconf := some k }, get_menu_tree showOpt k)
       | Except.error e => Except.error e) ∧
    setValueOp loadRes norm m name value =
      (match loadRes with
       | Except.ok k => Except.ok { kconf := some (set_value norm k name value) }
       | Except.error e => Except.error e) := by
  obtain ⟨mk⟩ := m
  cases h
  exact ⟨rfl, rfl, rfl⟩

/-- C3 amended witness: a failing load surfaces `fileNotFound`, never a
not-loaded error, and save on the unloaded session succeeds doing
nothing. -/
theorem c3_amended_witness :
    saveConfigOp { kconf := none } = Except.ok ({ kconf := none }, none) ∧
    getMenuTreeOp (Except.error LoadErr.fileNotFound) false { kconf := none }
      = Except.error LoadErr.fileNotFound :=
  ⟨(c3_amended (Except.error LoadErr.fileNotFound) normId { kconf := none }
      false "A" "y" rfl).1,
   (c3_amended (Except.error LoadErr.fileNotFound) normId { kconf := none }
      false "A" "y" rfl).2.1⟩

theorem getEnvVar_setEnvVar_self (env : List (String × String))
    (key v : String) :
    getEnvVar (setEnvVar env key v) key = some v := by
  induction env with
  | nil => simp [setEnvVar, getEnvVar, List.find?]
  | cons p rest ih =>
    by_cases h : p.1 = key
    · simp [setEnvVar, getEnvVar, List.find?, h]
    · simp only [setEnvVar, if_neg (by simp [h] : ¬ ((p.1 == key) = true))]
      simp only [getEnvVar] at ih ⊢
      rw [findPair_cons_neg _ _ _ h]
      exact ih

theorem getEnvVar_setEnvVar_ne (env : List (String × String))
    (key v other : String) (h : other ≠ key) :
    getEnvVar (setEnvVar env key v) other = getEnvVar env other := by
  induction env with
  | nil =>
    have hko : (key == other) = false := by simp [Ne.symm h]
    simp [setEnvVar, getEnvVar, List.find?, hko]
  | cons p rest ih =>
    by_cases hp : p.1 = key
    · have hpo : p.1 ≠ other := fun ho => h (ho ▸ hp)
      simp only [setEnvVar, if_pos (by simp [hp] : (p.1 == key) = true),
        getEnvVar]
      rw [findPair_cons_neg _ _ _ (show ((p.1, v) : String × String).1 ≠ other
          from hpo),
        findPair_cons_neg _ _ _ hpo]
    · simp only [setEnvVar, if_neg (by simp [hp] : ¬ ((p.1 == key) = true))]
      by_cases ho : p.1 = other
      · simp only [getEnvVar]
        rw [findPair_cons_pos _ _ _ ho, findPair_cons_pos _ _ _ ho]
      · simp only [getEnvVar] at ih ⊢
        rw [findPair_cons_neg _ _ _ ho, findPair_cons_neg _ _ _ ho]
        exact ih

/-! ## C5 — parse-state restoration -/

/-- C5 counterexample: `_load_kconfig_sync` sets `SRCTREE` before the
existence check and never restores it: after a successful load and after
a definition-file-not-found failure alike, the environment still holds
the new value instead of the prior `/old`. -/
theorem c5_counterexample :
    getEnvVar ([("SRCTREE", "/old")] : List (String × String)) "SRCTREE"
      = some "/old" ∧
    getEnvVar (load_kconfig_sync "/abs/klipper" true true
      { cwd := "/home", env := [("SRCTREE", "/old")] }).2.env "SRCTREE"
      = some "/abs/klipper" ∧
    getEnvVar (load_kconfig_sync "/abs/klipper" false true
      { cwd := "/home", env := [("SRCTREE", "/old")] }).2.env "SRCTREE"
      = some "/abs/klipper" ∧
    ("/abs/klipper" : String) ≠ "/old" := by
  refine ⟨rfl, rfl, rfl, by decide⟩

/-- C5 amended: the working directory is restored (or never changed) on
every exit path of `_load_kconfig_sync`, but the `SRCTREE`/`srctree`
environment variables are mutated before the existence check and are
left pointing at the definition root on every exit path. -/
theorem c5_amended (absDir : String) (fsExists parseOk : Bool)
    (st : ProcState) :
    (load_kconfig_sync absDir fsExists parseOk st).2.cwd = st.cwd ∧
    getEnvVar (load_kconfig_sync absDir fsExists parseOk st).2.env "SRCTREE"
      = some absDir ∧
    getEnvVar (load_kconfig_sync absDir fsExists parseOk st).2.env "srctree"
      = some absDir := by
  unfold load_kconfig_sync
  have henv1 : getEnvVar (setEnvVar (setEnvVar st.env "SRCTREE" absDir)
      "srctree" absDir) "SRCTREE" = some absDir := by
    rw [getEnvVar_setEnvVar_ne _ _ _ _ (by decide),
      getEnvVar_setEnvVar_self]
  have henv2 : getEnvVar (setEnvVar (setEnvVar st.env "SRCTREE" absDir)
      "srctree" absDir) "srctree" = some absDir :=
    getEnvVar_setEnvVar_self _ _ _
  cases fsExists with
  | false => exact ⟨rfl, henv1, henv2⟩
  | true =>
    cases parseOk with
    | false => exact ⟨rfl, henv1, henv2⟩
    | true => exact ⟨rfl, henv1, henv2⟩

/-! ## C6 — compatibility hook (spec-modelled) -/

/-- C6: per the spec-modelled hook phase, the hook runs exactly when the
script exists and the sub-definition file is absent; on hook failure an
empty placeholder is written and the load continues; when the
sub-definition file already exists the hook does not run; the load
continues in every case. -/
theorem c6_compat_hook (h : HookEnv) :
    (h.scriptExists = true → h.subDefExists = false →
      (runExtrasHook h).hookRan = true) ∧
    (h.scriptExists = true → h.subDefExists = false → h.hookFails = true →
      (runExtrasHook h).placeholderWritten = true) ∧
    (h.subDefExists = true → (runExtrasHook h).hookRan = false) ∧
    (runExtrasHook h).loadContinues = true := by
  obtain ⟨se, sd, hf⟩ := h
  cases se <;> cases sd <;> cases hf <;> simp [runExtrasHook]

/-- C6 witness: with the script present, the sub-definition file absent
and a failing hook, the hook runs, the placeholder is written, and the
load continues. -/
theorem c6_compat_hook_witness :
    (runExtrasHook ⟨true, false, true⟩).hookRan = true ∧
    (runExtrasHook ⟨true, false, true⟩).placeholderWritten = true ∧
    (runExtrasHook ⟨true, false, true⟩).loadContinues = true := by
  have h := c6_compat_hook ⟨true, false, true⟩
  exact ⟨h.1 rfl rfl, h.2.1 rfl rfl rfl, h.2.2.2⟩


/-! ## C4 — redundant-choice elision -/

/-- C4: for every choice node included in the projected tree, zero
visible members force `visible=false`, and exactly one visible member
that is the active selection forces `visible=false` while the entry
still lists that single member in its choices. -/
theorem c4_redundant_choice_elision (showOpt : Bool) (node : Node)
    (c : ChoiceItem) (e : Entry) (hitem : node.item = Item.choice c)
    (hser : serialize_node showOpt node = some e) :
    (visibleMembers c = [] → e.visibleField = false) ∧
    (∀ m, visibleMembers c = [m] → choiceSelected c = some m.name →
        e.visibleField = false ∧ e.choicesField = [memberEntry m]) := by
  cases node with
  | mk item prompt depVal depStr linenr help children =>
    have hi : item = Item.choice c := hitem
    subst hi
    cases prompt with
    | none => exact absurd hser (by simp [serialize_node, Node.prompt])
    | some pr =>
      obtain ⟨ptext, pcond⟩ := pr
      simp only [serialize_node, Node.prompt, Node.item] at hser
      split at hser
      · exact absurd hser (by simp)
      · injection hser with he
        subst he
        constructor
        · intro hmem
          simp [Entry.visibleField, choiceFinalVisible, hmem]
        · intro m hmem hsel
          constructor
          · simp [Entry.visibleField, choiceFinalVisible, hmem, hsel]
          · simp [Entry.choicesField, hmem]

/-- A choice with exactly one visible member that is the active
selection, and one invisible member. -/
def memC4a : Sym :=
  { name := "MACH_A", type := SymType.boolT, visibility := 2,
    strValue := "y", revDepVal := 0, choice := none,
    nodePrompt := some "Machine A" }

def memC4b : Sym :=
  { name := "MACH_B", type := SymType.boolT, visibility := 0,
    strValue := "n", revDepVal := 0, choice := none,
    nodePrompt := some "Machine B" }

def choiceC4 : ChoiceItem :=
  { name := none, syms := [memC4a, memC4b], selection := some "MACH_A",
    visibility := 2, strValue := "y" }

def nodeC4 : Node :=
  Node.mk (Item.choice choiceC4) (some ("Machine type", 1)) 1 "" 7 none []

/-- C4 witness: the concrete redundant choice projects `visible=false`
yet stays present with its single visible member listed. -/
theorem c4_redundant_choice_elision_witness :
    ∃ e, serialize_node false nodeC4 = some e ∧ e.visibleField = false ∧
      e.choicesField = [memberEntry memC4a] := by
  obtain ⟨e, he⟩ : ∃ e, serialize_node false nodeC4 = some e := ⟨_, rfl⟩
  have h := (c4_redundant_choice_elision false nodeC4 choiceC4 e rfl he).2
    memC4a (by rfl) (by rfl)
  exact ⟨e, he, h.1, h.2⟩

/-! ## C10 — implicit menu/comment classification -/

/-- C10: an included node whose item is MENU or COMMENT is typed "menu"
exactly when it has at least one raw child node and "comment" otherwise,
independently of which of the two item kinds the engine reported, and
its entry always carries `visible=true`. -/
theorem c10_menu_comment_classification (showOpt : Bool) (node : Node)
    (e : Entry) (hmc : node.item = Item.menu ∨ node.item = Item.comment)
    (hser : serialize_node showOpt node = some e) :
    e.kindField = (if node.children.isEmpty then "comment" else "menu") ∧
    e.visibleField = true := by
  cases node with
  | mk item prompt depVal depStr linenr help children =>
    cases prompt with
    | none => exact absurd hser (by simp [serialize_node, Node.prompt])
    | some pr =>
      obtain ⟨ptext, pcond⟩ := pr
      rcases hmc with hm | hm
      · have hi : item = Item.menu := hm
        subst hi
        simp only [serialize_node, Node.prompt, Node.item] at hser
        split at hser
        · exact absurd hser (by simp)
        · injection hser with he
          subst he
          exact ⟨rfl, rfl⟩
      · have hi : item = Item.comment := hm
        subst hi
        simp only [serialize_node, Node.prompt, Node.item] at hser
        split at hser
        · exact absurd hser (by simp)
        · injection hser with he
          subst he
          exact ⟨rfl, rfl⟩

/-- A promptless (hence never projected) symbol child. -/
def symHid : Sym :=
  { name := "HIDDEN", type := SymType.boolT, visibility := 0,
    strValue := "n", revDepVal := 0, choice := none, nodePrompt := none }

def childC10 : Node := Node.mk (Item.sym symHid) none 0 "" 9 none []

/-- A COMMENT item that owns one raw child node. -/
def nodeC10 : Node :=
  Node.mk Item.comment (some ("Board info", 1)) 0 "" 2 none [childC10]

/-- C10 witness: the comment-kind item with one (excluded) raw child is
classified "menu" with `visible=true`. -/
theorem c10_menu_comment_classification_witness :
    ∃ e, serialize_node false nodeC10 = some e ∧ e.kindField = "menu" ∧
      e.visibleField = true := by
  obtain ⟨e, he⟩ : ∃ e, serialize_node false nodeC10 = some e := ⟨_, rfl⟩
  have h := c10_menu_comment_classification false nodeC10 e (Or.inr rfl) he
  refine ⟨e, he, ?_, h.2⟩
  rw [h.1]
  rfl

/-! ## C7 — name field of projected entries -/

/-- An included menu/comment node for the C7 counterexample. -/
def nodeC7 : Node :=
  Node.mk Item.menu (some ("Klipper menu", 1)) 0 "" 4 none []

/-- C7 counterexample: the projected tree of a single included
menu/comment node consists of one entry, and that entry carries no
`name` key at all — menu and comment entries are projected without any
identifier. -/
theorem c7_counterexample :
    (parse_menu_item false [nodeC7]).map Entry.nameField = [none] := by
  simp [parse_menu_item, serialize_node, nodeC7, Node.prompt, Node.item,
    Node.children, Node.help, Entry.nameField]

/-- C7 amended: symbol and choice entries carry a `name` — the real
identifier when nonempty, otherwise the synthetic
`__node_<prompt>_<line>` (symbols) or `__choice_<prompt>_<line>`
(anonymous choices) — while menu and comment entries carry no `name`
key. -/
theorem c7_amended (showOpt : Bool) (node : Node) (e : Entry)
    (ptext : String) (pcond : Nat) (hp : node.prompt = some (ptext, pcond))
    (hser : serialize_node showOpt node = some e) :
    ((node.item = Item.menu ∨ node.item = Item.comment) →
      e.nameField = none) ∧
    (∀ s, node.item = Item.sym s →
      e.nameField = some (if s.name != "" then s.name
        else "__node_" ++ ptext ++ "_" ++ toString node.linenr)) ∧
    (∀ c, node.item = Item.choice c →
      e.nameField = some (if c.name.getD "" == ""
        then "__choice_" ++ ptext ++ "_" ++ toString node.linenr
        else c.name.getD "")) := by
  cases node with
  | mk item prompt depVal depStr linenr help children =>
    have hp' : prompt = some (ptext, pcond) := hp
    subst hp'
    refine ⟨?_, ?_, ?_⟩
    · intro hmc
      rcases hmc with hm | hm
      · have hi : item = Item.menu := hm
        subst hi
        simp only [serialize_node, Node.prompt, Node.item] at hser
        split at hser
        · exact absurd hser (by simp)
        · injection hser with he
          subst he
          rfl
      · have hi : item = Item.comment := hm
        subst hi
        simp only [serialize_node, Node.prompt, Node.item] at hser
        split at hser
        · exact absurd hser (by simp)
        · injection hser with he
          subst he
          rfl
    · intro s hm
      have hi : item = Item.sym s := hm
      subst hi
      simp only [serialize_node, Node.prompt, Node.item] at hser
      split at hser
      · exact absurd hser (by simp)
      · injection hser with he
        subst he
        rfl
    · intro c hm
      have hi : item = Item.choice c := hm
      subst hi
      simp only [serialize_node, Node.prompt, Node.item] at hser
      split at hser
      · exact absurd hser (by simp)
      · injection hser with he
        subst he
        rfl

/-- The single visible member of the anonymous choice below. -/
def memC7 : Sym :=
  { name := "CPU_A", type := SymType.boolT, visibility := 2,
    strValue := "y", revDepVal := 0, choice := none,
    nodePrompt := some "Processor A" }

def choiceC7 : ChoiceItem :=
  { name := none, syms := [memC7], selection := some "CPU_A",
    visibility := 2, strValue := "y" }

/-- An anonymous choice node at line 12 with prompt "Processor". -/
def nodeC7b : Node :=
  Node.mk (Item.choice choiceC7) (some ("Processor", 1)) 1 "" 12 none []

/-- C7 amended witness: the anonymous choice projects with the synthetic
name derived from its prompt and line number. -/
theorem c7_amended_witness :
    ∃ e, serialize_node false nodeC7b = some e ∧
      e.nameField = some "__choice_Processor_12" := by
  obtain ⟨e, he⟩ : ∃ e, serialize_node false nodeC7b = some e := ⟨_, rfl⟩
  refine ⟨e, he, ?_⟩
  have h := (c7_amended false nodeC7b e "Processor" 1 rfl he).2.2 choiceC7 rfl
  rw [h]
  rfl

end KlipperFleet
